import Mathlib

/-!
Verification of the dogtricks serial frame codec, transport receive loop,
command correlator and metadata decoder.

The definitions below are a shallow embedding of the C++ sources:

* `Transport::SendMessageFrame`, `Transport::SendAckFrame`,
  `Transport::SendFrame`, `Transport::InsertByte`, `Transport::ComputeSum`,
  `Transport::ReadByte` and `Transport::ReceiveFrame` from the later
  transport implementation (the one with sequence numbers and Ack replies);
* the checksum acceptance test of the earlier `transport.cpp` for
  comparison;
* `Radio::OnPacketReceived`, `Radio::SendCommand` and the metadata decoder
  (`Radio::ParseMetadata`, `Radio::HandleMetadataPacket`,
  `Radio::PopulateMetadataEventField`) from the later radio implementation.

Bytes are modelled as `Nat` values (a `uint8_t` cell always holds a value
below 256; where C++ truncates, the model takes `% 256` explicitly).  The
`int8_t` arithmetic of `ComputeSum` is modelled on `Int` with an explicit
two's-complement wrap.  Buffers are `List Nat`; the serial link is a list
of raw bytes.  Fallible operations return `Option`.
-/

namespace Dogtricks

/-- The sync byte used to indicate a start of message (`kSyncByte`). -/
def kSyncByte : Nat := 0xa4

/-- The escape byte used to encode a sync (`kEscapeByte`). -/
def kEscapeByte : Nat := 0x1b

/-- The byte sent when encoding an escaped sync byte (`kEscapedSyncByte`). -/
def kEscapedSyncByte : Nat := 0x53

/-- The fixed protocol version byte (`kProtocolByte`). -/
def kProtocolByte : Nat := 0x03

/-- The frame type value for a message frame (`kMessageFrame`). -/
def kMessageFrame : Nat := 0x00

/-- The frame type value for an Ack frame (`kAckFrame`). -/
def kAckFrame : Nat := 0x80

/-- The size of the message buffer (`kMessageBufferSize = UINT8_MAX + 32`). -/
def kMessageBufferSize : Nat := 255 + 32

/-- The size of the tx/rx frame buffers (`kTxRxBufferSize = UINT8_MAX + 64`). -/
def kTxRxBufferSize : Nat := 255 + 64

/-- Reduce an integer to the value of the `int8_t` with the same low 8 bits
(two's complement). -/
def wrap8 (x : Int) : Int := (x + 128) % 256 - 128

/-- The `int8_t` value obtained by `static_cast<int8_t>` of a byte. -/
def toInt8 (b : Nat) : Int := wrap8 b

/-- Wrapping `int8_t` addition. -/
def int8add (a b : Int) : Int := wrap8 (a + b)

/-- `Transport::ComputeSum`: the signed 8-bit sum of the bytes of a buffer,
accumulated with wrapping `int8_t` additions. -/
def computeSum (l : List Nat) : Int :=
  l.foldl (fun s b => int8add s (toInt8 b)) 0

/-- The byte stored by `message_buffer[pos++] = -checksum` for an `int8_t`
checksum value: the `uint8_t` conversion of the integer negation. -/
def negByte (c : Int) : Nat := ((-c) % 256).toNat

/-- `Transport::SendMessageFrame` (later transport version): build the
unstuffed frame bytes for one message frame.  The header stores the
sequence number (a `uint8_t` member), the message frame type, the length
byte `static_cast<uint8_t>(size) + 2` (truncated into a `uint8_t` cell),
the big-endian op code, then the payload, then the checksum byte. -/
def sendMessageFrame (opCode : Nat) (payload : List Nat) (seq : Nat) : List Nat :=
  let body := [kSyncByte, kProtocolByte, 0x00, seq % 256, kMessageFrame,
               (payload.length % 256 + 2) % 256,
               opCode / 256 % 256, opCode % 256] ++ payload
  body ++ [negByte (computeSum body)]

/-- `Transport::SendAckFrame`: build the unstuffed bytes of a zero-length
Ack frame for the given sequence number. -/
def sendAckFrame (seq : Nat) : List Nat :=
  let body := [kSyncByte, kProtocolByte, 0x00, seq % 256, kAckFrame, 0]
  body ++ [negByte (computeSum body)]

/-- `Transport::InsertByte`: append one logical byte to the tx buffer,
escaping sync and escape bytes when there is room for the 2-byte escape
sequence.  The buffer is the list built so far, `pos` its write position
and `size` its capacity; `none` models returning `false` (no room). -/
def insertByte (b : Nat) (buffer : List Nat) (pos size : Nat) :
    Option (List Nat × Nat) :=
  if b = kSyncByte ∧ pos + 1 < size then
    some (buffer ++ [kEscapeByte, kEscapedSyncByte], pos + 2)
  else if b = kEscapeByte ∧ pos + 1 < size then
    some (buffer ++ [kEscapeByte, kEscapeByte], pos + 2)
  else if pos < size then
    some (buffer ++ [b], pos + 1)
  else
    none

/-- The loop of `Transport::SendFrame`: insert each remaining frame byte
through `insertByte`; a failed insert stops the loop with `none` (the
assertion fails and nothing is written to the link). -/
def sendFrameLoop : List Nat → List Nat → Nat → Option (List Nat)
  | [], buffer, _ => some buffer
  | b :: rest, buffer, pos =>
    match insertByte b buffer pos kTxRxBufferSize with
    | none => none
    | some (buffer', pos') => sendFrameLoop rest buffer' pos'

/-- `Transport::SendFrame`: the byte stream written to the link for a frame,
or `none` when byte stuffing overruns the tx buffer.  The first byte
written is the sync byte, unescaped; the loop starts at index 1. -/
def sendFrame (frame : List Nat) : Option (List Nat) :=
  sendFrameLoop (frame.drop 1) [kSyncByte] 1

/-- `Transport::ReadByte`: read one logical byte from the link, resolving
one level of escape sequence.  `none` models both a stopped link and the
fatal invalid-escape-sequence error. -/
def readByte : List Nat → Option (Nat × List Nat)
  | [] => none
  | b :: rest =>
    if b = kEscapeByte then
      match rest with
      | [] => none
      | s :: rest' =>
        if s = kEscapedSyncByte then some (kSyncByte, rest')
        else if s = kEscapeByte then some (kEscapeByte, rest')
        else none
    else some (b, rest)

/-- Read `n` logical bytes through `readByte`. -/
def readBytes : Nat → List Nat → Option (List Nat × List Nat)
  | 0, s => some ([], s)
  | n + 1, s =>
    match readByte s with
    | none => none
    | some (b, s') =>
      match readBytes n s' with
      | none => none
      | some (bs, s'') => some (b :: bs, s'')

/-- The reading half of `Transport::ReceiveFrame` (later version): discard
raw bytes until a sync byte, then read the five header bytes into
positions 1..5, `message_buffer[5]` payload bytes, and the checksum byte.
Returns the filled message buffer contents and the rest of the stream. -/
def receiveRead (stream : List Nat) : Option (List Nat × List Nat) :=
  match stream.dropWhile (fun b => b ≠ kSyncByte) with
  | [] => none
  | _ :: s2 =>
    match readBytes 5 s2 with
    | none => none
    | some (hdr, s3) =>
      match readBytes (hdr.getD 4 0) s3 with
      | none => none
      | some (pl, s4) =>
        match readByte s4 with
        | none => none
        | some (cs, s5) => some (kSyncByte :: hdr ++ pl ++ [cs], s5)

/-- What one iteration of the receive loop does with a validated buffer:
which sequence number is acknowledged and which packet reaches the
listener. -/
structure RxAction where
  ack : Option Nat
  packet : Option (Nat × List Nat)

/-- The dispatch half of `Transport::ReceiveFrame` (later version): verify
the checksum with the `uint8_t`-truncated test, send an Ack for message
frames, and invoke the listener when the declared length is at least 2.
Ack frames are observed but not acted upon; other frame types are logged
and dropped. -/
def processFrame (buf : List Nat) : RxAction :=
  let computedSum := computeSum (buf.take (buf.length - 1))
  let receivedSum := toInt8 (buf.getD (buf.length - 1) 0)
  if (computedSum + receivedSum) % 256 ≠ 0 then ⟨none, none⟩
  else
    let sequenceNumber := buf.getD 3 0
    let frameType := buf.getD 4 0
    if frameType = kMessageFrame then
      if buf.getD 5 0 < 2 then ⟨some sequenceNumber, none⟩
      else
        ⟨some sequenceNumber,
         some (buf.getD 6 0 <<< 8 ||| buf.getD 7 0,
               (buf.drop 8).take (buf.getD 5 0 - 2))⟩
    else ⟨none, none⟩

/-- The checksum acceptance test of the earlier `transport.cpp`
`ReceiveFrame`: accept when the plain integer sum of the two `int8_t`
values is zero. -/
def acceptsEarly (buf : List Nat) : Bool :=
  computeSum (buf.take (buf.length - 1)) + toInt8 (buf.getD (buf.length - 1) 0) == 0

/-- The checksum acceptance test of the later transport `ReceiveFrame`:
accept when the `uint8_t` truncation of the integer sum of the two
`int8_t` values is zero. -/
def acceptsLate (buf : List Nat) : Bool :=
  (computeSum (buf.take (buf.length - 1)) + toInt8 (buf.getD (buf.length - 1) 0)) % 256 == 0

/-- The pending-command slot of the `Radio` correlator: the expected
response op code, the caller's response buffer (modelled by its contents)
and the declared buffer size. -/
structure Correlator where
  responseOpCode : Nat
  response : List Nat
  responseSize : Nat

/-- `Radio::OnPacketReceived` as it affects the correlator slot: a packet
whose op code matches the registered expectation is copied into the
registered buffer and the waiter is notified; any other packet (including
the metadata branch and unhandled op codes) leaves the slot untouched. -/
def onPacketReceived (st : Correlator) (opCode : Nat) (payload : List Nat) :
    Correlator × Bool :=
  if opCode = st.responseOpCode then
    ({ st with response := payload }, true)
  else
    (st, false)

/-- Deliver inbound packets to a waiting `SendCommand` until the first one
that notifies the waiter; the second component tells whether the waiter
was woken before the window closed. -/
def runPackets : Correlator → List (Nat × List Nat) → Correlator × Bool
  | st, [] => (st, false)
  | st, (op, pl) :: rest =>
    match onPacketReceived st op pl with
    | (st', true) => (st', true)
    | (st', false) => runPackets st' rest

/-- Deliver inbound packets while no command is waiting (the receive loop
keeps running `OnPacketReceived` on every decoded frame). -/
def deliverAll (st : Correlator) (ps : List (Nat × List Nat)) : Correlator :=
  ps.foldl (fun s p => (onPacketReceived s p.1 p.2).1) st

/-- `Radio::SendCommand`: register the expected response op code and the
caller's buffer in the pending-command slot, send the request, then block
until a matching packet is signalled or the timeout elapses.  `window` is
the list of packets the receive loop delivers before the deadline; the
`Bool` result is `true` exactly when the wait did not time out. -/
def sendCommand (st : Correlator) (responseOpCode : Nat) (buffer : List Nat)
    (window : List (Nat × List Nat)) : Correlator × Bool :=
  runPackets
    { st with
        responseOpCode := responseOpCode,
        response := buffer,
        responseSize := buffer.length }
    window

/-- The sparse metadata record decoded from one metadata frame
(`Radio::Metadata`); strings are byte lists. -/
structure Metadata where
  artist : Option (List Nat)
  title : Option (List Nat)
  album : Option (List Nat)
  recordLabel : Option (List Nat)
  composer : Option (List Nat)
  altArtist : Option (List Nat)
  comments : Option (List Nat)
  promoText : List (List Nat)

/-- A freshly constructed `Metadata` record: every field unset. -/
def emptyMetadata : Metadata := ⟨none, none, none, none, none, none, none, []⟩

/-- `Radio::PopulateMetadataEventField`: route one decoded field into the
record by its type byte; song id, artist id, empty and unknown types are
ignored. -/
def populateMetadataEventField (data : Metadata) (strType : Nat)
    (str : List Nat) : Metadata :=
  if strType = 0x01 then { data with artist := some str }
  else if strType = 0x02 then { data with title := some str }
  else if strType = 0x03 then { data with album := some str }
  else if strType = 0x04 then { data with recordLabel := some str }
  else if strType = 0x06 then { data with composer := some str }
  else if strType = 0x07 then { data with altArtist := some str }
  else if strType = 0x08 then { data with comments := some str }
  else if strType = 0x20 ∨ strType = 0x21 ∨ strType = 0x22 ∨ strType = 0x23 then
    { data with promoText := data.promoText ++ [str] }
  else data

/-- The field loop of `Radio::ParseMetadata`: walk `i` remaining fields
from `off`; the two bounds checks mirror `(parsing_offset + 1) >= size`
and `(parsing_offset + length - 1) >= size` (with `parsing_offset`
already advanced past the type and length bytes in the second). -/
def parseFieldsLoop (payload : List Nat) (size : Nat) :
    Nat → Nat → Metadata → Bool × Metadata
  | _, 0, data => (true, data)
  | off, i + 1, data =>
    if size ≤ off + 1 then (false, data)
    else
      let strType := payload.getD off 0
      let len := payload.getD (off + 1) 0
      if size ≤ off + 2 + len - 1 then (false, data)
      else
        parseFieldsLoop payload size (off + 2 + len) i
          (populateMetadataEventField data strType ((payload.drop (off + 2)).take len))

/-- `Radio::ParseMetadata`: a payload of fewer than two bytes is a short
packet; otherwise the first byte is the field count and the field list is
walked from offset 1. -/
def parseMetadata (payload : List Nat) (size : Nat) : Bool × Metadata :=
  if size < 2 then (false, emptyMetadata)
  else parseFieldsLoop payload size 1 (payload.getD 0 0) emptyMetadata

/-- `Radio::HandleMetadataPacket`: split the channel id off the payload,
decode the rest, and surface the record to the listener only when the
decode succeeded. -/
def handleMetadataPacket (payload : List Nat) : Option (Nat × Metadata) :=
  if payload.length < 2 then none
  else
    let r := parseMetadata (payload.drop 1) (payload.length - 1)
    if r.1 then some (payload.getD 0 0, r.2) else none

/-- Stated from the claim's words: some field of the metadata field list,
walked from `off` with `i` fields remaining, declares a length that would
read past the payload boundary (or its own type/length header already
does). -/
def someFieldOverruns (payload : List Nat) (size : Nat) : Nat → Nat → Bool
  | _, 0 => false
  | off, i + 1 =>
    if size ≤ off + 1 then true
    else if size ≤ off + 2 + payload.getD (off + 1) 0 - 1 then true
    else someFieldOverruns payload size (off + 2 + payload.getD (off + 1) 0) i

/-! ### Arithmetic of the 8-bit checksum -/

theorem wrap8_emod (x : Int) : wrap8 x % 256 = x % 256 := by
  unfold wrap8; omega

theorem wrap8_range (x : Int) : -128 ≤ wrap8 x ∧ wrap8 x ≤ 127 := by
  unfold wrap8; omega

theorem computeSum_go (l : List Nat) : ∀ a : Int,
    List.foldl (fun s b => int8add s (toInt8 b)) (wrap8 a) l = wrap8 (a + l.sum) := by
  induction l with
  | nil => intro a; simp
  | cons b rest ih =>
    intro a
    have h1 : int8add (wrap8 a) (toInt8 b) = wrap8 (a + b) := by
      unfold int8add toInt8 wrap8; omega
    have h2 := ih (a + b)
    simp only [List.foldl_cons, h1, h2, List.sum_cons]
    congr 1
    push_cast
    ring

theorem computeSum_eq (l : List Nat) : computeSum l = wrap8 l.sum := by
  have h0 : (0 : Int) = wrap8 0 := by unfold wrap8; norm_num
  unfold computeSum
  rw [h0, computeSum_go]
  norm_num

theorem computeSum_range (l : List Nat) : -128 ≤ computeSum l ∧ computeSum l ≤ 127 := by
  rw [computeSum_eq]; exact wrap8_range _

/-- The checksum byte appended by the encoder makes any frame body sum to
zero modulo 256. -/
theorem frame_sum (body : List Nat) :
    (body ++ [negByte (computeSum body)]).sum % 256 = 0 := by
  rw [computeSum_eq]
  simp only [List.sum_append, List.sum_cons, List.sum_nil, add_zero]
  unfold negByte wrap8
  omega

/-! ### Claim theorems: encoder side -/

set_option maxRecDepth 40000 in
/-- Claim C1 (code bug evaluation): for the 253-byte all-sync payload the
byte stuffing of `SendFrame` overruns the `kTxRxBufferSize`-byte tx
buffer, `InsertByte` fails, and no wire encoding is produced, so the
round-trip claim has no encoding to decode. -/
theorem C1_tx_buffer_overflow :
    sendFrame (sendMessageFrame 0x000a (List.replicate 253 0xa4) 0) = none := by
  rfl

/-- Claim C2: every encoded frame — a message frame for any op code and
payload within the `size <= UINT8_MAX` precondition, and an Ack frame for
any sequence number — sums to 0 modulo 256 including its trailing
checksum byte. -/
theorem C2_checksum_invariant (opCode : Nat) (payload : List Nat) (seq ackSeq : Nat)
    (hsize : payload.length ≤ 255) :
    (sendMessageFrame opCode payload seq).sum % 256 = 0 ∧
    (sendAckFrame ackSeq).sum % 256 = 0 :=
  ⟨frame_sum _, frame_sum _⟩

theorem C2_checksum_invariant_witness :
    (sendMessageFrame 0x000a [51, 0, 0, 0] 0).sum % 256 = 0 ∧
    (sendAckFrame 5).sum % 256 = 0 :=
  C2_checksum_invariant 0x000a [51, 0, 0, 0] 0 5 (by decide)

set_option maxRecDepth 40000 in
/-- Claim C3 (code bug evaluation): the frame with op code 0x000a, sequence
number 0xc2 and a payload of 155 sync bytes is emitted as a 319-byte wire
stream whose final byte — the checksum byte 0xa4, inserted with exactly
one slot left in the tx buffer — is an unescaped sync byte at position
318. -/
theorem C3_unescaped_sync_emitted :
    ((sendFrame (sendMessageFrame 0x000a (List.replicate 155 0xa4) 0xc2)).getD []).getD 318 0
        = kSyncByte ∧
    ((sendFrame (sendMessageFrame 0x000a (List.replicate 155 0xa4) 0xc2)).getD []).length
        = 319 :=
  ⟨rfl, rfl⟩

/-- Claim C4 (counterexample): the frame encoded for a SetChannel request on
channel 51 does not begin with `A4 03 00 00 00 04` at sequence number 0 —
its length byte is 0x06, not 0x04. -/
theorem C4_length_byte_counterexample :
    (sendMessageFrame 0x000a [51, 0, 0, 0] 0).take 6
        ≠ [0xa4, 0x03, 0x00, 0x00, 0x00, 0x04] := by
  decide

/-- Claim C4 (amended): encoding a SetChannel request for channel 51
produces, for every current sequence number, exactly the bytes
`A4 03 00 seq 00 06 00 0A 33 00 00 00` followed by one checksum byte; the
length byte equals 0x06, the payload length including the 2-byte op code,
and the whole frame sums to 0 modulo 256. -/
theorem C4_set_channel_frame (seq : Nat) (hseq : seq < 256) :
    (sendMessageFrame 0x000a [51, 0, 0, 0] seq).take 12
        = [0xa4, 0x03, 0x00, seq, 0x00, 0x06, 0x00, 0x0a, 51, 0, 0, 0] ∧
    (sendMessageFrame 0x000a [51, 0, 0, 0] seq).length = 13 ∧
    (sendMessageFrame 0x000a [51, 0, 0, 0] seq).getD 5 0
        = ([51, 0, 0, 0] : List Nat).length + 2 ∧
    (sendMessageFrame 0x000a [51, 0, 0, 0] seq).sum % 256 = 0 := by
  have hmod : seq % 256 = seq := Nat.mod_eq_of_lt hseq
  have hunf : sendMessageFrame 0x000a [51, 0, 0, 0] seq
      = [0xa4, 0x03, 0x00, seq % 256, 0x00, 0x06, 0x00, 0x0a, 51, 0, 0, 0]
        ++ [negByte (computeSum
             [0xa4, 0x03, 0x00, seq % 256, 0x00, 0x06, 0x00, 0x0a, 51, 0, 0, 0])] := rfl
  rw [hunf, hmod]
  refine ⟨?_, rfl, rfl, frame_sum _⟩
  rfl

theorem C4_set_channel_frame_witness :
    (sendMessageFrame 0x000a [51, 0, 0, 0] 7).take 12
        = [0xa4, 0x03, 0x00, 7, 0x00, 0x06, 0x00, 0x0a, 51, 0, 0, 0] ∧
    (sendMessageFrame 0x000a [51, 0, 0, 0] 7).length = 13 ∧
    (sendMessageFrame 0x000a [51, 0, 0, 0] 7).getD 5 0
        = ([51, 0, 0, 0] : List Nat).length + 2 ∧
    (sendMessageFrame 0x000a [51, 0, 0, 0] 7).sum % 256 = 0 :=
  C4_set_channel_frame 7 (by decide)

/-! ### Claim theorems: the two checksum acceptance tests -/

/-- Claim C10 (counterexample): on the Ack-type frame
`A4 03 00 59 80 00` with checksum byte `80` — computed `int8_t` sum -128,
received `int8_t` checksum -128 — the earlier transport version rejects
while the later one accepts, so the two acceptance tests are not
equivalent. -/
theorem C10_checksum_tests_counterexample :
    acceptsEarly [0xa4, 0x03, 0x00, 0x59, 0x80, 0x00, 0x80] = false ∧
    acceptsLate [0xa4, 0x03, 0x00, 0x59, 0x80, 0x00, 0x80] = true :=
  ⟨rfl, rfl⟩

/-- Claim C10 (amended): the later acceptance test accepts exactly when the
earlier one accepts or both the computed `int8_t` sum and the received
`int8_t` checksum byte equal -128 (bit pattern 0x80); in that one extra
case the frame's total is 0 modulo 256, the later test accepts it and the
earlier test rejects it.  Everywhere else the two tests agree. -/
theorem C10_checksum_tests_relation (buf : List Nat) :
    acceptsLate buf =
      (acceptsEarly buf ||
        (computeSum (buf.take (buf.length - 1)) == -128 &&
         toInt8 (buf.getD (buf.length - 1) 0) == -128)) := by
  have hbool : ∀ p q : Bool, (p = true ↔ q = true) → p = q := by
    intro p q h; cases p <;> cases q <;> simp_all
  have hc := computeSum_range (buf.take (buf.length - 1))
  have hr := wrap8_range ((buf.getD (buf.length - 1) 0 : Int))
  apply hbool
  unfold acceptsEarly acceptsLate toInt8
  simp only [beq_iff_eq, Bool.or_eq_true, Bool.and_eq_true]
  constructor
  · intro h
    omega
  · intro h
    omega

/-! ### Claim theorems: command correlator -/

theorem runPackets_spec : ∀ (w : List (Nat × List Nat)) (st : Correlator),
    (((runPackets st w).2 = true) ↔ ∃ p ∈ w, p.1 = st.responseOpCode) ∧
    ((runPackets st w).2 = true →
      ∃ p ∈ w, p.1 = st.responseOpCode ∧ (runPackets st w).1.response = p.2) := by
  intro w
  induction w with
  | nil =>
    intro st
    constructor
    · simp [runPackets]
    · simp [runPackets]
  | cons q rest ih =>
    intro st
    obtain ⟨op, pl⟩ := q
    by_cases hop : op = st.responseOpCode
    · have hred : runPackets st ((op, pl) :: rest) = ({ st with response := pl }, true) := by
        simp [runPackets, onPacketReceived, hop]
      rw [hred]
      constructor
      · exact iff_of_true rfl ⟨(op, pl), List.mem_cons_self _ _, hop⟩
      · intro _
        exact ⟨(op, pl), List.mem_cons_self _ _, hop, rfl⟩
    · have hred : runPackets st ((op, pl) :: rest) = runPackets st rest := by
        simp [runPackets, onPacketReceived, hop]
      rw [hred]
      obtain ⟨ih1, ih2⟩ := ih st
      constructor
      · rw [ih1]
        constructor
        · rintro ⟨p, hp, h1⟩
          exact ⟨p, List.mem_cons_of_mem _ hp, h1⟩
        · rintro ⟨p, hp, h1⟩
          rcases List.mem_cons.mp hp with hph | hpt
          · subst hph
            exact absurd h1 hop
          · exact ⟨p, hpt, h1⟩
      · intro hr
        obtain ⟨p, hp, h1, h2⟩ := ih2 hr
        exact ⟨p, List.mem_cons_of_mem _ hp, h1, h2⟩

/-- Claim C6: `SendCommand` succeeds exactly when a packet carrying the
expected response op code is delivered inside the timeout window, and
then the caller's buffer holds that packet's payload; its outcome is
independent of whatever state an earlier (for instance timed-out) command
left behind, so after a timeout the correlator accepts and carries out a
new command unchanged. -/
theorem C6_send_command_correlation (responseOpCode : Nat) (buffer : List Nat)
    (window : List (Nat × List Nat)) (st st' : Correlator) :
    (((sendCommand st responseOpCode buffer window).2 = true) ↔
        ∃ p ∈ window, p.1 = responseOpCode) ∧
    ((sendCommand st responseOpCode buffer window).2 = true →
        ∃ p ∈ window, p.1 = responseOpCode ∧
          (sendCommand st responseOpCode buffer window).1.response = p.2) ∧
    sendCommand st responseOpCode buffer window
        = sendCommand st' responseOpCode buffer window := by
  have h := runPackets_spec window ⟨responseOpCode, buffer, buffer.length⟩
  exact ⟨h.1, h.2, rfl⟩

theorem deliverAll_registration (st : Correlator) (ps : List (Nat × List Nat)) :
    (deliverAll st ps).responseOpCode = st.responseOpCode ∧
    (deliverAll st ps).responseSize = st.responseSize := by
  induction ps generalizing st with
  | nil => exact ⟨rfl, rfl⟩
  | cons p rest ih =>
    have hstep : deliverAll st (p :: rest) = deliverAll (onPacketReceived st p.1 p.2).1 rest := rfl
    rw [hstep]
    have hop : (onPacketReceived st p.1 p.2).1.responseOpCode = st.responseOpCode ∧
        (onPacketReceived st p.1 p.2).1.responseSize = st.responseSize := by
      unfold onPacketReceived
      by_cases hc : p.1 = st.responseOpCode <;> simp [hc]
    obtain ⟨ih1, ih2⟩ := ih (onPacketReceived st p.1 p.2).1
    exact ⟨ih1.trans hop.1, ih2.trans hop.2⟩

/-- Claim C7: a response frame arriving after its command has timed out is
handled totally (the model evaluates on every input, no crash): a frame
that does not match the registered expectation leaves the correlator
untouched, a frame that does match writes only the currently registered
buffer and never the registered op code or size, and any sequence of such
late frames leaves a subsequent command's behaviour — return value and
populated buffer — exactly as if the late frames had never arrived. -/
theorem C7_stale_response_isolation (st : Correlator) (lateFrames : List (Nat × List Nat))
    (responseOpCode : Nat) (buffer : List Nat) (window : List (Nat × List Nat)) :
    sendCommand (deliverAll st lateFrames) responseOpCode buffer window
        = sendCommand st responseOpCode buffer window ∧
    (deliverAll st lateFrames).responseOpCode = st.responseOpCode ∧
    (deliverAll st lateFrames).responseSize = st.responseSize ∧
    ∀ op pl, op ≠ st.responseOpCode → onPacketReceived st op pl = (st, false) := by
  refine ⟨rfl, (deliverAll_registration st lateFrames).1,
      (deliverAll_registration st lateFrames).2, ?_⟩
  intro op pl h
  simp [onPacketReceived, h]

/-! ### Claim theorems: metadata decoder -/

theorem parseFieldsLoop_overrun (payload : List Nat) (size : Nat) :
    ∀ (i off : Nat) (data : Metadata),
      someFieldOverruns payload size off i = true →
      (parseFieldsLoop payload size off i data).1 = false := by
  intro i
  induction i with
  | zero =>
    intro off data h
    simp only [someFieldOverruns] at h
    exact absurd h (by simp)
  | succ n ih =>
    intro off data h
    simp only [someFieldOverruns] at h
    simp only [parseFieldsLoop]
    by_cases h1 : size ≤ off + 1
    · rw [if_pos h1]
    · rw [if_neg h1] at h ⊢
      by_cases h2 : size ≤ off + 2 + payload.getD (off + 1) 0 - 1
      · rw [if_pos h2]
      · rw [if_neg h2] at h ⊢
        exact ih _ _ h

/-- Claim C8: whenever some field of a metadata payload declares a length
that would read past the payload boundary, the whole decode aborts with a
short-packet error and nothing — not even a partial record built from the
fields before the bad one — is surfaced to the listener. -/
theorem C8_short_field_aborts (payload : List Nat)
    (hover : someFieldOverruns (payload.drop 1) (payload.length - 1) 1
        ((payload.drop 1).getD 0 0) = true) :
    handleMetadataPacket payload = none := by
  unfold handleMetadataPacket
  by_cases hlen : payload.length < 2
  · simp [hlen]
  · have hparse : (parseMetadata (payload.drop 1) (payload.length - 1)).1 = false := by
      unfold parseMetadata
      by_cases hsz : payload.length - 1 < 2
      · simp [hsz]
      · simpa [hsz] using
          parseFieldsLoop_overrun (payload.drop 1) (payload.length - 1)
            ((payload.drop 1).getD 0 0) 1 emptyMetadata hover
    rw [List.drop_one] at hparse
    simp [hlen, hparse]

theorem C8_short_field_aborts_witness : handleMetadataPacket [7, 1, 1, 200] = none :=
  C8_short_field_aborts [7, 1, 1, 200] (by decide)

/-! ### Claim theorems: receive loop buffer bound -/

theorem readByte_bytes : ∀ (s : List Nat) (b : Nat) (s' : List Nat),
    readByte s = some (b, s') → (∀ x ∈ s, x < 256) →
    b < 256 ∧ ∀ x ∈ s', x < 256 := by
  intro s b s' h hs
  match s with
  | [] => simp [readByte] at h
  | [c] =>
    by_cases hc : c = kEscapeByte
    · simp [readByte, hc] at h
    · simp only [readByte, if_neg hc, Option.some.injEq, Prod.mk.injEq] at h
      obtain ⟨hb, hs'⟩ := h
      subst hb; subst hs'
      exact ⟨hs c (by simp), by simp⟩
  | c :: d :: rest =>
    by_cases hc : c = kEscapeByte
    · by_cases hd : d = kEscapedSyncByte
      · simp only [readByte, if_pos hc, if_pos hd, Option.some.injEq, Prod.mk.injEq] at h
        obtain ⟨hb, hs'⟩ := h
        subst hb; subst hs'
        refine ⟨by decide, ?_⟩
        intro x hx
        exact hs x (by simp [hx])
      · by_cases he : d = kEscapeByte
        · simp only [readByte, if_pos hc, if_neg hd, if_pos he, Option.some.injEq,
            Prod.mk.injEq] at h
          obtain ⟨hb, hs'⟩ := h
          subst hb; subst hs'
          refine ⟨by decide, ?_⟩
          intro x hx
          exact hs x (by simp [hx])
        · simp [readByte, if_pos hc, if_neg hd, if_neg he] at h
    · simp only [readByte, if_neg hc, Option.some.injEq, Prod.mk.injEq] at h
      obtain ⟨hb, hs'⟩ := h
      subst hb; subst hs'
      refine ⟨hs c (by simp), ?_⟩
      intro x hx
      exact hs x (by simp [hx])

theorem readBytes_bytes : ∀ (n : Nat) (s bs s' : List Nat),
    readBytes n s = some (bs, s') → (∀ x ∈ s, x < 256) →
    bs.length = n ∧ (∀ x ∈ bs, x < 256) ∧ (∀ x ∈ s', x < 256) := by
  intro n
  induction n with
  | zero =>
    intro s bs s' h hs
    simp only [readBytes, Option.some.injEq, Prod.mk.injEq] at h
    obtain ⟨hb, hs'⟩ := h
    subst hb; subst hs'
    exact ⟨rfl, by simp, hs⟩
  | succ m ih =>
    intro s bs s' h hs
    simp only [readBytes] at h
    cases hrb : readByte s with
    | none =>
      simp only [hrb] at h
      exact Option.noConfusion h
    | some p =>
      obtain ⟨b, s1⟩ := p
      simp only [hrb] at h
      cases hrs : readBytes m s1 with
      | none =>
        simp only [hrs] at h
        exact Option.noConfusion h
      | some q =>
        obtain ⟨bs1, s2⟩ := q
        simp only [hrs, Option.some.injEq, Prod.mk.injEq] at h
        obtain ⟨hb, hs'⟩ := h
        subst hb; subst hs'
        obtain ⟨hblt, hs1⟩ := readByte_bytes s b s1 hrb hs
        obtain ⟨hl, hbs, hs2⟩ := ih s1 bs1 s2 hrs hs1
        refine ⟨by simp [hl], ?_, hs2⟩
        intro x hx
        rcases List.mem_cons.mp hx with hxh | hxt
        · subst hxh; exact hblt
        · exact hbs x hxt

/-- Claim C9: on every inbound byte stream, one iteration of the receive
loop fills a message buffer of at most 1 sync + 5 header + 255 payload +
1 checksum = 262 bytes, strictly below `kMessageBufferSize = 287`, so the
attacker-controlled length byte can never index out of bounds. -/
theorem C9_receive_buffer_bound (stream : List Nat) (hs : ∀ b ∈ stream, b < 256)
    (buf rest : List Nat) (hr : receiveRead stream = some (buf, rest)) :
    buf.length ≤ 262 ∧ 262 < kMessageBufferSize := by
  refine ⟨?_, by decide⟩
  unfold receiveRead at hr
  cases hdw : stream.dropWhile (fun b => b ≠ kSyncByte) with
  | nil =>
    simp only [hdw] at hr
    exact Option.noConfusion hr
  | cons c s2 =>
    simp only [hdw] at hr
    have hs2 : ∀ x ∈ s2, x < 256 := by
      have hsub : (c :: s2) ⊆ stream := by
        rw [← hdw]
        exact (List.dropWhile_suffix _).subset
      intro x hx
      exact hs x (hsub (List.mem_cons_of_mem _ hx))
    cases h5 : readBytes 5 s2 with
    | none =>
      simp only [h5] at hr
      exact Option.noConfusion hr
    | some p =>
      obtain ⟨hdr, s3⟩ := p
      simp only [h5] at hr
      obtain ⟨hl5, hhdr, hs3⟩ := readBytes_bytes 5 s2 hdr s3 h5 hs2
      cases hpl : readBytes (hdr.getD 4 0) s3 with
      | none =>
        simp only [hpl] at hr
        exact Option.noConfusion hr
      | some q =>
        obtain ⟨pl, s4⟩ := q
        simp only [hpl] at hr
        obtain ⟨hlpl, hplb, hs4⟩ := readBytes_bytes _ s3 pl s4 hpl hs3
        cases hcs : readByte s4 with
        | none =>
          simp only [hcs] at hr
          exact Option.noConfusion hr
        | some r2 =>
          obtain ⟨cs, s5⟩ := r2
          simp only [hcs, Option.some.injEq, Prod.mk.injEq] at hr
          obtain ⟨hbuf, hrest⟩ := hr
          subst hbuf
          have hlen4 : hdr.getD 4 0 < 256 := by
            have h4 : (4 : Nat) < hdr.length := by omega
            rw [List.getD_eq_getElem hdr 0 h4]
            exact hhdr _ (List.getElem_mem h4)
          simp only [List.length_cons, List.length_append, List.length_nil]
          omega

theorem C9_receive_buffer_bound_witness :
    ([0xa4, 0x03, 0x00, 0x00, 0x00, 0x00, 0x59] : List Nat).length ≤ 262 ∧
    262 < kMessageBufferSize :=
  C9_receive_buffer_bound [0xa4, 0x03, 0x00, 0x00, 0x00, 0x00, 0x59] (by decide)
    [0xa4, 0x03, 0x00, 0x00, 0x00, 0x00, 0x59] [] rfl

/-! ### Claim theorems: receive loop dispatch -/

/-- Claim C5: one receive-loop iteration on a validated message buffer —
sync byte, header fields `v m seq t len`, `len` payload bytes, checksum
byte — acknowledges the received sequence number and invokes the listener
(with the big-endian op code from the first two payload bytes and the
remaining `len - 2` bytes) exactly when the declared length is at least
2; a frame with a bad checksum or an unrecognized frame type is dropped
with no acknowledgement and no listener call, and a short message frame
is dropped without a listener call. -/
theorem C5_receive_dispatch (v m seq t len cs : Nat) (payload : List Nat)
    (hlen : payload.length = len) :
    ((computeSum ([0xa4, v, m, seq, t, len] ++ payload) + toInt8 cs) % 256 = 0 →
      t = kMessageFrame →
      (processFrame ([0xa4, v, m, seq, t, len] ++ payload ++ [cs])).ack = some seq ∧
      ((processFrame ([0xa4, v, m, seq, t, len] ++ payload ++ [cs])).packet ≠ none ↔
        2 ≤ len) ∧
      (2 ≤ len →
        (processFrame ([0xa4, v, m, seq, t, len] ++ payload ++ [cs])).packet =
          some (payload.getD 0 0 <<< 8 ||| payload.getD 1 0, payload.drop 2))) ∧
    ((computeSum ([0xa4, v, m, seq, t, len] ++ payload) + toInt8 cs) % 256 ≠ 0 →
      processFrame ([0xa4, v, m, seq, t, len] ++ payload ++ [cs]) = ⟨none, none⟩) ∧
    ((computeSum ([0xa4, v, m, seq, t, len] ++ payload) + toInt8 cs) % 256 = 0 →
      t ≠ kMessageFrame →
      processFrame ([0xa4, v, m, seq, t, len] ++ payload ++ [cs]) = ⟨none, none⟩) := by
  have hlenbuf : (([(0xa4 : Nat), v, m, seq, t, len] ++ payload) ++ [cs]).length - 1
      = ([(0xa4 : Nat), v, m, seq, t, len] ++ payload).length := by
    simp
  have htake : (([(0xa4 : Nat), v, m, seq, t, len] ++ payload) ++ [cs]).take
      ((([(0xa4 : Nat), v, m, seq, t, len] ++ payload) ++ [cs]).length - 1)
      = [(0xa4 : Nat), v, m, seq, t, len] ++ payload := by
    rw [hlenbuf, List.take_left]
  have hgetlast : (([(0xa4 : Nat), v, m, seq, t, len] ++ payload) ++ [cs]).getD
      ((([(0xa4 : Nat), v, m, seq, t, len] ++ payload) ++ [cs]).length - 1) 0 = cs := by
    rw [hlenbuf, List.getD_append_right _ _ _ _ (le_refl _)]
    simp
  have h3 : (([(0xa4 : Nat), v, m, seq, t, len] ++ payload) ++ [cs]).getD 3 0 = seq := rfl
  have h4 : (([(0xa4 : Nat), v, m, seq, t, len] ++ payload) ++ [cs]).getD 4 0 = t := rfl
  have h5 : (([(0xa4 : Nat), v, m, seq, t, len] ++ payload) ++ [cs]).getD 5 0 = len := rfl
  refine ⟨?_, ?_, ?_⟩
  · intro hok ht
    have h2' : 0 < payload.length ∨ True := Or.inr trivial
    simp only [processFrame]
    rw [htake, hgetlast, if_neg (not_not_intro hok), h3, h4, h5, if_pos ht]
    by_cases hl : len < 2
    · rw [if_pos hl]
      refine ⟨rfl, ?_, ?_⟩
      · exact iff_of_false (by simp) (by omega)
      · intro h2
        omega
    · have h2 : 2 ≤ len := by omega
      have h6 : (([(0xa4 : Nat), v, m, seq, t, len] ++ payload) ++ [cs]).getD 6 0
          = payload.getD 0 0 := by
        show (payload ++ [cs]).getD 0 0 = payload.getD 0 0
        exact List.getD_append _ _ _ _ (by omega)
      have h7 : (([(0xa4 : Nat), v, m, seq, t, len] ++ payload) ++ [cs]).getD 7 0
          = payload.getD 1 0 := by
        show (payload ++ [cs]).getD 1 0 = payload.getD 1 0
        exact List.getD_append _ _ _ _ (by omega)
      have hdrop : ((([(0xa4 : Nat), v, m, seq, t, len] ++ payload) ++ [cs]).drop 8).take
          (len - 2) = payload.drop 2 := by
        show ((payload ++ [cs]).drop 2).take (len - 2) = payload.drop 2
        rw [List.drop_append_eq_append_drop]
        have hz : 2 - payload.length = 0 := by omega
        rw [hz, List.drop_zero]
        exact List.take_left' (by simp [hlen])
      rw [if_neg hl, h6, h7, hdrop]
      exact ⟨rfl, iff_of_true (by simp) h2, fun _ => rfl⟩
  · intro hbad
    simp only [processFrame]
    rw [htake, hgetlast, if_pos hbad]
  · intro hok hnt
    simp only [processFrame]
    rw [htake, hgetlast, if_neg (not_not_intro hok), h4, if_neg hnt]

theorem C5_receive_dispatch_witness :
    (processFrame ([0xa4, 3, 0, 5, 0, 2] ++ [32, 10] ++ [40])).ack = some 5 ∧
    (processFrame ([0xa4, 3, 0, 5, 0, 2] ++ [32, 10] ++ [40])).packet
      = some (32 <<< 8 ||| 10, []) := by
  have h := (C5_receive_dispatch 3 0 5 0 2 40 [32, 10] rfl).1 (by decide) rfl
  exact ⟨h.1, h.2.2 (by decide)⟩

end Dogtricks
